import Mathlib

/-!
Shallow embedding of the CHIP-8 emulator core (`src/core/src` of the
repository): `errors.rs`, `memory.rs`, `stack.rs`, `display.rs`,
`helpers.rs` and `processor.rs`, together with theorems checking the
natural-language specification against it.

Conventions of the embedding:
* Rust machine integers become `Nat`; wrapping `u8`/`u16` arithmetic is
  written with explicit `% 256` / `% 65536` (release-mode wraparound
  semantics of the source).
* Fixed-size arrays (`[u8; 4096]`, `[u16; 16]`, `[bool; 2048]`,
  `[u8; 16]`) become total functions `Nat → _`; every in-bounds access of
  the source maps to plain application, and every access whose index can
  go out of bounds in the source is guarded in the embedding and produces
  the `crash` outcome (a Rust panic) when the source would panic.
* Fallible operations return `Outcome`, distinguishing a normal return,
  a recoverable `Err`, and a Rust panic (`crash`).
* The SDL canvas, window and audio objects are external collaborators and
  are not part of the modelled state; `Display.render`'s modelled effect
  is the state change it performs on the `Display` struct.
* `rand::rngs::ThreadRng` is modelled as an oracle stream of bytes
  together with a cursor into it.
-/

namespace Chip8

/-- The error enumeration of `src/core/src/errors.rs` (the variants the
core engine can produce; the SDL/IO variants carry external data and are
not constructed by any modelled operation). -/
inductive Error where
  | invalidOpcodeError : String → Error
  | unknownOpcodeError : Nat → Error
  | invalidRomSizeError : Error
  | stackOverflowError : Error
  | stackUnderflowError : Error
  | invalidRamAddressError : Error
  | missingRomError : Error
  deriving DecidableEq

/-- Outcome of running a Rust computation: a normal return, a recoverable
`Err` propagated through `Result`, or a panic (out-of-bounds indexing or
`copy_from_slice` length mismatch). `crash` models the panic. -/
inductive Outcome (α : Type) where
  | ok : α → Outcome α
  | err : Error → Outcome α
  | crash : Outcome α
  deriving DecidableEq

def RAM_SIZE : Nat := 4096

def START_ADDR : Nat := 0x200

def MAX_ROM_SIZE : Nat := RAM_SIZE - START_ADDR

def FONTSET_ADDR : Nat := 0x050

def SCREEN_WIDTH : Nat := 64

def SCREEN_HEIGHT : Nat := 32

def STACK_SIZE : Nat := 16

def NUM_REGS : Nat := 16

def CARRY_REGISTER : Nat := NUM_REGS - 1

/-- `FONTSET` of `memory.rs`: 16 glyphs of 5 bytes each. -/
def FONTSET : List Nat :=
  [0xF0, 0x90, 0x90, 0x90, 0xF0,
   0x20, 0x60, 0x20, 0x20, 0x70,
   0xF0, 0x10, 0xF0, 0x80, 0xF0,
   0xF0, 0x10, 0xF0, 0x10, 0xF0,
   0x90, 0x90, 0xF0, 0x10, 0x10,
   0xF0, 0x80, 0xF0, 0x10, 0xF0,
   0xF0, 0x80, 0xF0, 0x90, 0xF0,
   0xF0, 0x10, 0x20, 0x40, 0x40,
   0xF0, 0x90, 0xF0, 0x90, 0xF0,
   0xF0, 0x90, 0xF0, 0x10, 0xF0,
   0xF0, 0x90, 0xF0, 0x90, 0x90,
   0xE0, 0x90, 0xE0, 0x90, 0xE0,
   0xF0, 0x80, 0x80, 0x80, 0xF0,
   0xE0, 0x90, 0x90, 0x90, 0xE0,
   0xF0, 0x80, 0xF0, 0x80, 0xF0,
   0xF0, 0x80, 0xF0, 0x80, 0x80]

/-- Point update of a `Nat`-valued array model (`arr[i] = v`). -/
def setAt (f : Nat → Nat) (i v : Nat) : Nat → Nat :=
  fun j => if j = i then v else f j

/-- Point update of a `Bool`-valued array model (`pixels[i] = b`). -/
def setPix (f : Nat → Bool) (i : Nat) (b : Bool) : Nat → Bool :=
  fun j => if j = i then b else f j

/-- Write the elements of a slice at consecutive addresses
(`dst[address..address+len].copy_from_slice(slice)`, with the range
already known to be in bounds at every use in this file). -/
def writeList (f : Nat → Nat) (address : Nat) : List Nat → (Nat → Nat)
  | [] => f
  | v :: rest => writeList (setAt f address v) (address + 1) rest

/-- `helpers::bit_to_bool`: the `n`-th bit of a byte, most-significant
first, zero-based (`((byte >> (7 - n)) & 0x1) != 0`). -/
def bit_to_bool (byte n : Nat) : Bool :=
  ((byte >>> (7 - n)) &&& 0x1) != 0

/-- `helpers::decode_middle_registers`: the X and Y register selectors of
an opcode `NXYN`. -/
def decode_middle_registers (opcode : Nat) : Nat × Nat :=
  ((opcode &&& 0x0F00) >>> 8, (opcode &&& 0x00F0) >>> 4)

/-! ## Memory (`src/core/src/memory.rs`) -/

/-- The `Memory` struct: a 4096-byte RAM and the `rom_loaded` flag. -/
structure Memory where
  ram : Nat → Nat
  rom_loaded : Bool

/-- `Memory::new`: zeroed RAM with the font set copied in at
`FONTSET_ADDR`, `rom_loaded` false. -/
def Memory.new : Memory :=
  { ram := writeList (fun _ => 0) FONTSET_ADDR FONTSET, rom_loaded := false }

/-- `Memory::load_rom`. The source copies with
`self.ram[START_ADDR..].copy_from_slice(rom)`; the destination slice has
fixed length `RAM_SIZE - START_ADDR`, and `copy_from_slice` panics when
the source length differs from it, so only a ROM of exactly
`MAX_ROM_SIZE` bytes is actually copied. -/
def Memory.load_rom (m : Memory) (rom : List Nat) : Outcome Memory :=
  if rom.length ≤ MAX_ROM_SIZE then
    if rom.length = RAM_SIZE - START_ADDR then
      .ok { ram := writeList m.ram START_ADDR rom, rom_loaded := true }
    else
      .crash
  else
    .err .invalidRomSizeError

/-- `Memory::read` (`self.ram[address as usize]`): a Rust array index,
which panics (`none`) when the address is past the end of RAM. -/
def Memory.read (m : Memory) (address : Nat) : Option Nat :=
  if address < RAM_SIZE then some (m.ram address) else none

/-- `Memory::write` (`self.ram[address as usize] = value`): panics
(`none`) when the address is past the end of RAM. -/
def Memory.write (m : Memory) (address value : Nat) : Option Memory :=
  if address < RAM_SIZE then
    some { m with ram := setAt m.ram address value }
  else
    none

/-- `Memory::read_slice` (`&self.ram[address..address + length]`): Rust
range slicing, which panics (`none`) when the end of the range is past
the end of RAM. -/
def Memory.read_slice (m : Memory) (address length : Nat) : Option (List Nat) :=
  if address + length ≤ RAM_SIZE then
    some ((List.range length).map (fun i => m.ram (address + i)))
  else
    none

/-- `Memory::write_slice`: bounds-checked block write, failing with
`InvalidRamAddressError` when `address + length` exceeds RAM. -/
def Memory.write_slice (m : Memory) (slice : List Nat) (address : Nat) : Outcome Memory :=
  if address + slice.length > RAM_SIZE then
    .err .invalidRamAddressError
  else
    .ok { m with ram := writeList m.ram address slice }

/-- `Memory::reset`: zero the RAM and clear the flag (the source version
in `core` does not re-copy the font set on reset). -/
def Memory.reset (_ : Memory) : Memory :=
  { ram := fun _ => 0, rom_loaded := false }

/-! ## Stack (`src/core/src/stack.rs`) -/

/-- The `Stack` struct: a 16-entry return-address array and the stack
pointer `sp`. -/
structure Stack where
  stack : Nat → Nat
  sp : Nat

/-- `Stack::new`. -/
def Stack.new : Stack :=
  { stack := fun _ => 0, sp := 0 }

/-- `Stack::push`: fails with `StackOverflowError` when `sp ≥ 16`,
otherwise stores at `sp` and increments `sp`. (The store is in bounds
whenever the guard passes, so `push` cannot panic.) -/
def Stack.push (s : Stack) (val : Nat) : Outcome Stack :=
  if s.sp ≥ STACK_SIZE then
    .err .stackOverflowError
  else
    .ok { stack := setAt s.stack s.sp val, sp := s.sp + 1 }

/-- `Stack::pop`: fails with `StackUnderflowError` when `sp = 0`,
otherwise decrements `sp` and reads `stack[sp]`; that read is a Rust
array index and would panic if the decremented pointer were still past
the 16-entry array. -/
def Stack.pop (s : Stack) : Outcome (Nat × Stack) :=
  if s.sp = 0 then
    .err .stackUnderflowError
  else
    if s.sp - 1 < STACK_SIZE then
      .ok (s.stack (s.sp - 1), { s with sp := s.sp - 1 })
    else
      .crash

/-- `Stack::reset`. -/
def Stack.reset (_ : Stack) : Stack :=
  { stack := fun _ => 0, sp := 0 }

/-! ## Display (`src/core/src/display.rs`)

The SDL canvas and window fields are external presentation state and are
not modelled; the modelled state is the flat boolean pixel buffer
(index `y * SCREEN_WIDTH + x`) and the redraw flag. -/

/-- The modelled fields of the `Display` struct. -/
structure Display where
  pixels : Nat → Bool
  redraw_flag : Bool

/-- A display with a blank pixel buffer and a clear redraw flag, as
produced by `Display::new` (ignoring the SDL window construction). -/
def Display.new : Display :=
  { pixels := fun _ => false, redraw_flag := false }

/-- `Display::redraw_needed`. -/
def Display.redraw_needed (d : Display) : Bool :=
  d.redraw_flag

/-- The inner loop of `Display::draw` (`for j in 0..8`), processing the
bit indices in `js` in order. `u8` additions wrap modulo 256; the x
position of bit `j` is `(x + j) % 256` and its buffer index is
`y_pos * SCREEN_WIDTH + x position`. The loop `break`s at the first bit
whose x position reaches the right edge; a set sprite bit erasing a set
pixel switches the carry register to 1. -/
def drawBits (pixels : Nat → Bool) (byte x y_pos carry : Nat) :
    List Nat → ((Nat → Bool) × Nat)
  | [] => (pixels, carry)
  | j :: rest =>
    if (x + j) % 256 ≥ SCREEN_WIDTH then
      (pixels, carry)
    else if pixels (y_pos * SCREEN_WIDTH + (x + j) % 256) && bit_to_bool byte j then
      drawBits (setPix pixels (y_pos * SCREEN_WIDTH + (x + j) % 256) false) byte x y_pos 1 rest
    else if bit_to_bool byte j then
      drawBits (setPix pixels (y_pos * SCREEN_WIDTH + (x + j) % 256) true) byte x y_pos carry rest
    else
      drawBits pixels byte x y_pos carry rest

/-- The outer loop of `Display::draw`
(`for (k, sprite_byte) in sprite.iter().enumerate()`), starting at row
index `k`; the y position of row `k` is `(y + k) % 256` (`u8` wrapping
addition). The loop `break`s at the first row whose y position reaches
the bottom edge. -/
def drawRows (pixels : Nat → Bool) (x y carry : Nat) :
    List Nat → Nat → ((Nat → Bool) × Nat)
  | [], _ => (pixels, carry)
  | byte :: rest, k =>
    if (y + k) % 256 ≥ SCREEN_HEIGHT then
      (pixels, carry)
    else
      drawRows (drawBits pixels byte x ((y + k) % 256) carry (List.range 8)).1 x y
        (drawBits pixels byte x ((y + k) % 256) carry (List.range 8)).2 rest (k + 1)

/-- The set of buffer indices toggled by one row of `drawBits`, as a
parity function: `bitsMask byte x y_pos js p` is true when the processed
prefix of `js` (up to the right-edge `break`) toggles index `p` an odd
number of times. Each surviving set sprite bit toggles exactly its own
buffer index, so this is the XOR of the per-bit indicators. -/
def bitsMask (byte x y_pos : Nat) : List Nat → Nat → Bool
  | [], _ => false
  | j :: rest, p =>
    if (x + j) % 256 ≥ SCREEN_WIDTH then
      false
    else
      xor (bit_to_bool byte j && decide (p = y_pos * SCREEN_WIDTH + (x + j) % 256))
        (bitsMask byte x y_pos rest p)

/-- The toggle parity of a whole `drawRows` call: XOR of the masks of the
rows processed before the bottom-edge `break`. It depends only on the
sprite and the anchor, not on the pixel buffer. -/
def rowsMask (x y : Nat) : List Nat → Nat → Nat → Bool
  | [], _, _ => false
  | byte :: rest, k, p =>
    if (y + k) % 256 ≥ SCREEN_HEIGHT then
      false
    else
      xor (bitsMask byte x ((y + k) % 256) (List.range 8) p) (rowsMask x y rest (k + 1) p)

/-- `Display::draw`: sets the redraw flag, XOR-blits the sprite rows and
returns the collision carry value (0 or 1). -/
def Display.draw (d : Display) (sprite : List Nat) (x_coord y_coord : Nat) :
    Display × Nat :=
  let res := drawRows d.pixels x_coord y_coord 0 sprite 0
  ({ pixels := res.1, redraw_flag := true }, res.2)

/-- `Display::clear`: zeroes every pixel. It does not touch the redraw
flag. -/
def Display.clear (d : Display) : Display :=
  { d with pixels := fun _ => false }

/-- The state effect of `Display::render` on its success path: the canvas
presentation is an external SDL effect, and the field update performed is
clearing the redraw flag. -/
def Display.render (d : Display) : Display :=
  { d with redraw_flag := false }

/-! ## Input (`src/core/src/input.rs`) -/

/-- The `Input` struct: a 16-entry key-down table. -/
structure Input where
  keys : Nat → Bool

/-- `Input::check_key` (`self.keys[key as usize]`): the key number comes
from a general register, so the index is a full byte and the array access
panics (`none`) when it is 16 or more. -/
def Input.check_key (inp : Input) (key : Nat) : Option Bool :=
  if key < 16 then some (inp.keys key) else none

/-- `Input::check_all_keys`: the index of the first pressed key, scanning
upward from 0, or `none` when no key is pressed. -/
def Input.check_all_keys (inp : Input) : Option Nat :=
  (List.range 16).find? (fun i => inp.keys i)

/-! ## Processor (`src/core/src/processor.rs`) -/

/-- The `Processor` struct. `rng`/`rngIdx` model `rand::rngs::ThreadRng`
as an oracle stream of bytes and a cursor. -/
structure Processor where
  pc : Nat
  memory : Memory
  v_reg : Nat → Nat
  i_reg : Nat
  stack : Stack
  st : Nat
  dt : Nat
  rng : Nat → Nat
  rngIdx : Nat

/-- `Processor::set_reg` (`self.v_reg[register as usize] = value`; every
register selector is a decoded nibble, so the access is in bounds). -/
def Processor.set_reg (p : Processor) (register value : Nat) : Processor :=
  { p with v_reg := setAt p.v_reg register value }

/-- `Processor::get_reg`. -/
def Processor.get_reg (p : Processor) (register : Nat) : Nat :=
  p.v_reg register

/-- `Processor::set_carry` (`self.v_reg[CARRY_REGISTER] = value`). -/
def Processor.set_carry (p : Processor) (value : Nat) : Processor :=
  p.set_reg CARRY_REGISTER value

/-- Opcode 00EE, `Processor::return_subroutine`: pop the return address
into the program counter. -/
def Processor.return_subroutine (p : Processor) : Outcome Processor :=
  match p.stack.pop with
  | .ok (return_address, stack') =>
    .ok { p with pc := return_address, stack := stack' }
  | .err e => .err e
  | .crash => .crash

/-- Opcode 1NNN, `Processor::jump`. -/
def Processor.jump (p : Processor) (opcode : Nat) : Processor :=
  { p with pc := opcode &&& 0x0FFF }

/-- Opcode 2NNN, `Processor::call_subroutine`: push the (already
advanced) program counter and jump to NNN. -/
def Processor.call_subroutine (p : Processor) (opcode : Nat) : Outcome Processor :=
  match p.stack.push p.pc with
  | .ok stack' => .ok { p with stack := stack', pc := opcode &&& 0x0FFF }
  | .err e => .err e
  | .crash => .crash

/-- Opcode 3XNN, `Processor::skip_equal`. -/
def Processor.skip_equal (p : Processor) (opcode : Nat) : Processor :=
  let register := (opcode &&& 0x0F00) >>> 8
  let number := opcode &&& 0x00FF
  if number = p.get_reg register then { p with pc := (p.pc + 2) % 65536 } else p

/-- Opcode 4XNN, `Processor::skip_not_equal`. -/
def Processor.skip_not_equal (p : Processor) (opcode : Nat) : Processor :=
  let register := (opcode &&& 0x0F00) >>> 8
  let number := opcode &&& 0x00FF
  if number ≠ p.get_reg register then { p with pc := (p.pc + 2) % 65536 } else p

/-- Opcode 5XY0, `Processor::skip_register_equal`. -/
def Processor.skip_register_equal (p : Processor) (opcode : Nat) : Processor :=
  let rs := decode_middle_registers opcode
  if p.get_reg rs.1 = p.get_reg rs.2 then { p with pc := (p.pc + 2) % 65536 } else p

/-- Opcode 6XNN, `Processor::load_number`. -/
def Processor.load_number (p : Processor) (opcode : Nat) : Processor :=
  p.set_reg ((opcode &&& 0x0F00) >>> 8) (opcode &&& 0x00FF)

/-- Opcode 7XNN, `Processor::add_number`: `u8::wrapping_add`. -/
def Processor.add_number (p : Processor) (opcode : Nat) : Processor :=
  let register := (opcode &&& 0x0F00) >>> 8
  let number := opcode &&& 0x00FF
  p.set_reg register ((p.get_reg register + number) % 256)

/-- Opcodes 8XY0 to 8XY3, `Processor::load_register_op`. -/
def Processor.load_register_op (p : Processor) (opcode : Nat) (op : Nat → Nat → Nat) : Processor :=
  let rs := decode_middle_registers opcode
  p.set_reg rs.1 (op (p.get_reg rs.1) (p.get_reg rs.2))

/-- Opcode 8XY4, `Processor::add_register_carry`: wrapping add, carry
computed by comparing the wrapped result with the pre-update VX; the
result is stored into VX and then the carry into VF. -/
def Processor.add_register_carry (p : Processor) (opcode : Nat) : Processor :=
  let rs := decode_middle_registers opcode
  let result := (p.get_reg rs.1 + p.get_reg rs.2) % 256
  let carry := if result < p.get_reg rs.1 then 1 else 0
  (p.set_reg rs.1 result).set_carry carry

/-- `u8::wrapping_sub` on byte values (both operands are taken modulo
256, as they are in the 8-bit source type). -/
def wrapping_sub8 (a b : Nat) : Nat :=
  (a % 256 + 256 - b % 256) % 256

/-- Opcode 8XY5, `Processor::sub_register`: `VX -= VY` wrapping, with the
not-borrow flag computed from the pre-update values; the result is stored
into VX and then the flag into VF. -/
def Processor.sub_register (p : Processor) (opcode : Nat) : Processor :=
  let rs := decode_middle_registers opcode
  let not_borrow := if p.get_reg rs.1 ≥ p.get_reg rs.2 then 1 else 0
  let result := wrapping_sub8 (p.get_reg rs.1) (p.get_reg rs.2)
  ((p.set_reg rs.1 result).set_carry not_borrow)

/-- Opcode 8XY6, `Processor::shift_right` (with the copy-VY-first
quirk). -/
def Processor.shift_right (p : Processor) (opcode : Nat) : Processor :=
  let rs := decode_middle_registers opcode
  let p1 := p.set_reg rs.1 (p.get_reg rs.2)
  let carry := p1.get_reg rs.1 &&& 0x1
  let p2 := p1.set_reg rs.1 (p1.get_reg rs.1 >>> 1)
  p2.set_carry carry

/-- Opcode 8XY7, `Processor::sub_register_reversed`: `VX = VY - VX`
wrapping, with the not-borrow flag computed from the pre-update values;
the result is stored into VX and then the flag into VF. -/
def Processor.sub_register_reversed (p : Processor) (opcode : Nat) : Processor :=
  let rs := decode_middle_registers opcode
  let not_borrow := if p.get_reg rs.2 ≥ p.get_reg rs.1 then 1 else 0
  let result := wrapping_sub8 (p.get_reg rs.2) (p.get_reg rs.1)
  ((p.set_reg rs.1 result).set_carry not_borrow)

/-- Opcode 8XYE, `Processor::shift_left` (with the copy-VY-first quirk;
the `u8` left shift drops the high bit). -/
def Processor.shift_left (p : Processor) (opcode : Nat) : Processor :=
  let rs := decode_middle_registers opcode
  let p1 := p.set_reg rs.1 (p.get_reg rs.2)
  let carry := (p1.get_reg rs.1 &&& 0x80) >>> 7
  let p2 := p1.set_reg rs.1 ((p1.get_reg rs.1 <<< 1) % 256)
  p2.set_carry carry

/-- Opcode 9XY0, `Processor::skip_register_not_equal`. -/
def Processor.skip_register_not_equal (p : Processor) (opcode : Nat) : Processor :=
  let rs := decode_middle_registers opcode
  if p.get_reg rs.1 ≠ p.get_reg rs.2 then { p with pc := (p.pc + 2) % 65536 } else p

/-- Opcode ANNN, `Processor::load_i`. -/
def Processor.load_i (p : Processor) (opcode : Nat) : Processor :=
  { p with i_reg := opcode &&& 0x0FFF }

/-- Opcode BNNN, `Processor::jump_plus`. -/
def Processor.jump_plus (p : Processor) (opcode : Nat) : Processor :=
  { p with pc := (p.get_reg 0 + (opcode &&& 0x0FFF)) % 65536 }

/-- Opcode CXNN, `Processor::random_and`: the next byte of the random
oracle stream, masked with NN. -/
def Processor.random_and (p : Processor) (opcode : Nat) : Processor :=
  let register := (opcode &&& 0x0F00) >>> 8
  let number := opcode &&& 0x00FF
  let random := p.rng p.rngIdx % 256
  { p with v_reg := setAt p.v_reg register (random &&& number), rngIdx := p.rngIdx + 1 }

/-- Opcode DXYN, `Processor::draw_sprite`: bounds-check the sprite range
against RAM (a `u16` sum, wrapping modulo 65536), wrap the anchor
coordinates, fetch the sprite rows and delegate to `Display::draw`,
storing the returned collision flag in VF. -/
def Processor.draw_sprite (p : Processor) (opcode : Nat) (display : Display) :
    Outcome (Processor × Display) :=
  let rs := decode_middle_registers opcode
  let rows := opcode &&& 0x000F
  if (p.i_reg + rows) % 65536 > RAM_SIZE then
    .err .invalidRamAddressError
  else
    let x_coord := p.get_reg rs.1 % SCREEN_WIDTH
    let y_coord := p.get_reg rs.2 % SCREEN_HEIGHT
    match p.memory.read_slice p.i_reg rows with
    | none => .crash
    | some sprite =>
      let res := display.draw sprite x_coord y_coord
      .ok (p.set_carry res.2, res.1)

/-- Opcode EX9E, `Processor::skip_if_keypress`: the key table access can
panic when VX holds 16 or more. -/
def Processor.skip_if_keypress (p : Processor) (opcode : Nat) (input : Input) :
    Outcome Processor :=
  let register := (opcode &&& 0x0F00) >>> 8
  match input.check_key (p.get_reg register) with
  | none => .crash
  | some pressed =>
    .ok (if pressed then { p with pc := (p.pc + 2) % 65536 } else p)

/-- Opcode EXA1, `Processor::skip_if_not_keypress`. -/
def Processor.skip_if_not_keypress (p : Processor) (opcode : Nat) (input : Input) :
    Outcome Processor :=
  let register := (opcode &&& 0x0F00) >>> 8
  match input.check_key (p.get_reg register) with
  | none => .crash
  | some pressed =>
    .ok (if pressed then p else { p with pc := (p.pc + 2) % 65536 })

/-- Opcode FX07, `Processor::load_delay_timer`. -/
def Processor.load_delay_timer (p : Processor) (opcode : Nat) : Processor :=
  p.set_reg ((opcode &&& 0x0F00) >>> 8) p.dt

/-- Opcode FX0A, `Processor::wait_for_keypress`: when no key is pressed
the program counter is moved back two bytes (`u16` wrapping subtraction)
so the same opcode re-runs next cycle. -/
def Processor.wait_for_keypress (p : Processor) (opcode : Nat) (input : Input) : Processor :=
  let register := (opcode &&& 0x0F00) >>> 8
  match input.check_all_keys with
  | some key => p.set_reg register key
  | none => { p with pc := (p.pc + 65536 - 2) % 65536 }

/-- Opcode FX15, `Processor::set_delay_timer`. -/
def Processor.set_delay_timer (p : Processor) (opcode : Nat) : Processor :=
  { p with dt := p.get_reg ((opcode &&& 0x0F00) >>> 8) }

/-- Opcode FX18, `Processor::set_sound_timer`. -/
def Processor.set_sound_timer (p : Processor) (opcode : Nat) : Processor :=
  { p with st := p.get_reg ((opcode &&& 0x0F00) >>> 8) }

/-- Opcode FX1E, `Processor::load_add_i` (`u16` wrapping add). -/
def Processor.load_add_i (p : Processor) (opcode : Nat) : Processor :=
  { p with i_reg := (p.i_reg + p.get_reg ((opcode &&& 0x0F00) >>> 8)) % 65536 }

/-- Opcode FX29, `Processor::find_character`. -/
def Processor.find_character (p : Processor) (opcode : Nat) : Processor :=
  { p with i_reg := FONTSET_ADDR + 5 * p.get_reg ((opcode &&& 0x0F00) >>> 8) }

/-- Opcode FX33, `Processor::store_bcd`: three unchecked RAM writes at
`I`, `I + 1`, `I + 2` (`u16` sums), each of which panics when its address
is past the end of RAM. -/
def Processor.store_bcd (p : Processor) (opcode : Nat) : Outcome Processor :=
  let register := (opcode &&& 0x0F00) >>> 8
  let number := p.get_reg register
  let hundreds := number / 100
  let tens := (number / 10) % 10
  let ones := number % 10
  match p.memory.write p.i_reg hundreds with
  | none => .crash
  | some m1 =>
    match m1.write ((p.i_reg + 1) % 65536) tens with
    | none => .crash
    | some m2 =>
      match m2.write ((p.i_reg + 2) % 65536) ones with
      | none => .crash
      | some m3 => .ok { p with memory := m3 }

/-- Opcode FX55, `Processor::dump_registers_to_ram`: bounds-checked block
write of V0..=VX through `Memory::write_slice`. -/
def Processor.dump_registers_to_ram (p : Processor) (opcode : Nat) : Outcome Processor :=
  let register := (opcode &&& 0x0F00) >>> 8
  let reg_slice := (List.range (register + 1)).map p.v_reg
  match p.memory.write_slice reg_slice p.i_reg with
  | .ok m' => .ok { p with memory := m' }
  | .err e => .err e
  | .crash => .crash

/-- Opcode FX65, `Processor::load_registers_from_ram`: the RAM range is
read with an unchecked Rust slice (`read_slice`), which panics when
`I + X + 1` is past the end of RAM; the registers V0..=VX are then
overwritten from it. -/
def Processor.load_registers_from_ram (p : Processor) (opcode : Nat) : Outcome Processor :=
  let register := (opcode &&& 0x0F00) >>> 8
  match p.memory.read_slice p.i_reg (register + 1) with
  | none => .crash
  | some memory_slice => .ok { p with v_reg := writeList p.v_reg 0 memory_slice }

/-- The decode-execute dispatch of `Processor::cycle` (the `match` on
`opcode & 0xF000` and its nested matches), applied after the program
counter has been advanced past the fetched opcode. -/
def Processor.execOpcode (p : Processor) (opcode : Nat) (display : Display) (input : Input) :
    Outcome (Processor × Display) :=
  let fam := opcode &&& 0xF000
  if fam = 0x0000 then
    if opcode = 0x00E0 then .ok (p, display.clear)
    else if opcode = 0x00EE then
      match p.return_subroutine with
      | .ok p' => .ok (p', display)
      | .err e => .err e
      | .crash => .crash
    else .err (.invalidOpcodeError "0NNN - Call machine code routine")
  else if fam = 0x1000 then .ok (p.jump opcode, display)
  else if fam = 0x2000 then
    match p.call_subroutine opcode with
    | .ok p' => .ok (p', display)
    | .err e => .err e
    | .crash => .crash
  else if fam = 0x3000 then .ok (p.skip_equal opcode, display)
  else if fam = 0x4000 then .ok (p.skip_not_equal opcode, display)
  else if fam = 0x5000 then .ok (p.skip_register_equal opcode, display)
  else if fam = 0x6000 then .ok (p.load_number opcode, display)
  else if fam = 0x7000 then .ok (p.add_number opcode, display)
  else if fam = 0x8000 then
    let sub := opcode &&& 0x000F
    if sub = 0x0 then .ok (p.load_register_op opcode (fun _ vy => vy), display)
    else if sub = 0x1 then .ok (p.load_register_op opcode (fun vx vy => vx ||| vy), display)
    else if sub = 0x2 then .ok (p.load_register_op opcode (fun vx vy => vx &&& vy), display)
    else if sub = 0x3 then .ok (p.load_register_op opcode (fun vx vy => vx ^^^ vy), display)
    else if sub = 0x4 then .ok (p.add_register_carry opcode, display)
    else if sub = 0x5 then .ok (p.sub_register opcode, display)
    else if sub = 0x6 then .ok (p.shift_right opcode, display)
    else if sub = 0x7 then .ok (p.sub_register_reversed opcode, display)
    else if sub = 0xE then .ok (p.shift_left opcode, display)
    else .err (.unknownOpcodeError opcode)
  else if fam = 0x9000 then .ok (p.skip_register_not_equal opcode, display)
  else if fam = 0xA000 then .ok (p.load_i opcode, display)
  else if fam = 0xB000 then .ok (p.jump_plus opcode, display)
  else if fam = 0xC000 then .ok (p.random_and opcode, display)
  else if fam = 0xD000 then p.draw_sprite opcode display
  else if fam = 0xE000 then
    let sub := opcode &&& 0x00FF
    if sub = 0x9E then
      match p.skip_if_keypress opcode input with
      | .ok p' => .ok (p', display)
      | .err e => .err e
      | .crash => .crash
    else if sub = 0xA1 then
      match p.skip_if_not_keypress opcode input with
      | .ok p' => .ok (p', display)
      | .err e => .err e
      | .crash => .crash
    else .err (.unknownOpcodeError opcode)
  else if fam = 0xF000 then
    let sub := opcode &&& 0x00FF
    if sub = 0x07 then .ok (p.load_delay_timer opcode, display)
    else if sub = 0x0A then .ok (p.wait_for_keypress opcode input, display)
    else if sub = 0x15 then .ok (p.set_delay_timer opcode, display)
    else if sub = 0x18 then .ok (p.set_sound_timer opcode, display)
    else if sub = 0x1E then .ok (p.load_add_i opcode, display)
    else if sub = 0x29 then .ok (p.find_character opcode, display)
    else if sub = 0x33 then
      match p.store_bcd opcode with
      | .ok p' => .ok (p', display)
      | .err e => .err e
      | .crash => .crash
    else if sub = 0x55 then
      match p.dump_registers_to_ram opcode with
      | .ok p' => .ok (p', display)
      | .err e => .err e
      | .crash => .crash
    else if sub = 0x65 then
      match p.load_registers_from_ram opcode with
      | .ok p' => .ok (p', display)
      | .err e => .err e
      | .crash => .crash
    else .err (.unknownOpcodeError opcode)
  else .err (.unknownOpcodeError opcode)

/-- `Processor::cycle`: check the ROM flag, check the program counter
against the end of RAM, fetch the two opcode bytes (Rust array reads that
panic past the end of RAM), compose the opcode high byte first, advance
the program counter by two, then decode and execute. -/
def Processor.cycle (p : Processor) (display : Display) (input : Input) :
    Outcome (Processor × Display) :=
  if !p.memory.rom_loaded then
    .err .missingRomError
  else if p.pc ≥ RAM_SIZE then
    .err .invalidRamAddressError
  else
    match p.memory.read p.pc with
    | none => .crash
    | some high_byte =>
      match p.memory.read ((p.pc + 1) % 65536) with
      | none => .crash
      | some low_byte =>
        let opcode := (high_byte <<< 8) ||| low_byte
        Processor.execOpcode { p with pc := (p.pc + 2) % 65536 } opcode display input

/-- `Processor::tick_timers`. -/
def Processor.tick_timers (p : Processor) : Processor :=
  { p with dt := p.dt - (if p.dt > 0 then 1 else 0),
           st := p.st - (if p.st > 0 then 1 else 0) }

/-- `Processor::check_beep`. -/
def Processor.check_beep (p : Processor) : Bool :=
  p.st > 0

/-! ## Concrete states and iteration helpers used by the theorems -/

/-- Push a list of values in order, propagating the first failure (the
effect of a run of consecutive `2NNN` subroutine calls on the stack). -/
def pushMany (s : Stack) : List Nat → Outcome Stack
  | [] => .ok s
  | v :: rest =>
    match s.push v with
    | .ok s' => pushMany s' rest
    | .err e => .err e
    | .crash => .crash

/-- An input state with no key pressed. -/
def noKeys : Input :=
  { keys := fun _ => false }

/-- A loaded memory whose ROM starts with the opcode bytes
`0x12 0x34` at the entry point and is zero elsewhere. -/
def memJump : Memory :=
  { ram := fun a => if a = 0x200 then 0x12 else if a = 0x201 then 0x34 else 0,
    rom_loaded := true }

/-- A freshly started processor on `memJump`. -/
def procBase : Processor :=
  { pc := START_ADDR, memory := memJump, v_reg := fun _ => 0, i_reg := 0,
    stack := Stack.new, st := 0, dt := 0, rng := fun _ => 0, rngIdx := 0 }

/-- A processor whose flag register V15 holds 1 and all others 0. -/
def procVF1 : Processor :=
  { procBase with v_reg := setAt (fun _ => 0) 15 1 }

/-- A processor whose flag register V15 holds 5 and all others 0. -/
def procVF5 : Processor :=
  { procBase with v_reg := setAt (fun _ => 0) 15 5 }

/-- A processor whose index register points at the last RAM byte. -/
def procIEnd : Processor :=
  { procBase with i_reg := 4095 }

/-- A processor whose program counter sits on the last RAM byte. -/
def procPcEnd : Processor :=
  { procBase with pc := 4095 }

/-- A second processor at program counter 4095, with a different RAM
content. -/
def procPcEnd7 : Processor :=
  { procBase with pc := 4095, memory := { ram := fun _ => 7, rom_loaded := true } }

/-- A processor state without a loaded ROM. -/
def procNoRom : Processor :=
  { procBase with memory := { memJump with rom_loaded := false } }

/-- A display whose pixel 0 is lit but whose redraw flag is clear (the
state after a draw at the origin followed by a `render`). -/
def dispLit : Display :=
  { pixels := setPix (fun _ => false) 0 true, redraw_flag := false }

/-! ## Helper lemmas -/

/-- Composing a high byte and a low part below `2 ^ n` by shift-and-or is
the same as positional addition. -/
theorem shiftLeft_lor_eq (n : Nat) :
    ∀ (h l : Nat), l < 2 ^ n → (h <<< n) ||| l = h * 2 ^ n + l := by
  induction n with
  | zero =>
    intro h l hl
    have hl0 : l = 0 := by simpa using Nat.lt_one_iff.mp (by simpa using hl)
    subst hl0
    simp [Nat.shiftLeft_eq]
  | succ n ih =>
    intro h l hl
    have hdecomp : Nat.bit (l.testBit 0) (l >>> 1) = l := Nat.bit_testBit_zero_shiftRight_one l
    have hsh : h <<< (n + 1) = Nat.bit false (h <<< n) := by
      simp [Nat.bit_val, Nat.shiftLeft_eq, Nat.pow_succ]
      ring
    have hl2 : l >>> 1 < 2 ^ n := by
      rw [Nat.shiftRight_eq_div_pow]
      have : l < 2 ^ n * 2 := by rw [← Nat.pow_succ]; exact hl
      omega
    calc (h <<< (n + 1)) ||| l
        = Nat.bit false (h <<< n) ||| Nat.bit (l.testBit 0) (l >>> 1) := by rw [hsh, hdecomp]
      _ = Nat.bit (false || l.testBit 0) ((h <<< n) ||| (l >>> 1)) := Nat.lor_bit _ _ _ _
      _ = Nat.bit (l.testBit 0) (h * 2 ^ n + l >>> 1) := by rw [ih _ _ hl2]; simp
      _ = h * 2 ^ (n + 1) + l := by
          have hb := Nat.bit_val (l.testBit 0) (l >>> 1)
          rw [hdecomp] at hb
          rw [Nat.bit_val, Nat.pow_succ]
          have hmul : h * (2 ^ n * 2) = 2 * (h * 2 ^ n) := by ring
          rw [hmul]
          omega

/-- The pixel buffer produced by the inner draw loop: each index ends up
XORed with the row's toggle parity. -/
theorem drawBits_fst (byte x y_pos : Nat) :
    ∀ (js : List Nat) (pixels : Nat → Bool) (c p : Nat),
      (drawBits pixels byte x y_pos c js).1 p = xor (pixels p) (bitsMask byte x y_pos js p) := by
  intro js
  induction js with
  | nil =>
    intro pixels c p
    simp [drawBits, bitsMask]
  | cons j rest ih =>
    intro pixels c p
    by_cases h1 : (x + j) % 256 ≥ SCREEN_WIDTH
    · simp [drawBits, bitsMask, h1]
    · have hmask : bitsMask byte x y_pos (j :: rest) p =
          xor (bit_to_bool byte j && decide (p = y_pos * SCREEN_WIDTH + (x + j) % 256))
            (bitsMask byte x y_pos rest p) := by
        simp [bitsMask, h1]
      by_cases hb : bit_to_bool byte j
      · by_cases hpix : pixels (y_pos * SCREEN_WIDTH + (x + j) % 256) = true
        · have hstep : drawBits pixels byte x y_pos c (j :: rest) =
              drawBits (setPix pixels (y_pos * SCREEN_WIDTH + (x + j) % 256) false)
                byte x y_pos 1 rest := by
            simp [drawBits, h1, hpix, hb]
          rw [hstep, ih, hmask, hb]
          by_cases hp : p = y_pos * SCREEN_WIDTH + (x + j) % 256
          · rw [hp]
            simp [setPix, hpix]
          · simp [setPix, hp]
        · have hpix' : pixels (y_pos * SCREEN_WIDTH + (x + j) % 256) = false := by
            simpa using hpix
          have hstep : drawBits pixels byte x y_pos c (j :: rest) =
              drawBits (setPix pixels (y_pos * SCREEN_WIDTH + (x + j) % 256) true)
                byte x y_pos c rest := by
            simp [drawBits, h1, hpix', hb]
          rw [hstep, ih, hmask, hb]
          by_cases hp : p = y_pos * SCREEN_WIDTH + (x + j) % 256
          · rw [hp]
            simp [setPix, hpix']
          · simp [setPix, hp]
      · have hb' : bit_to_bool byte j = false := by simpa using hb
        have hstep : drawBits pixels byte x y_pos c (j :: rest) =
            drawBits pixels byte x y_pos c rest := by
          simp [drawBits, h1, hb']
        rw [hstep, ih, hmask, hb']
        simp

/-- Once the collision carry is 1, the rest of the inner loop keeps it. -/
theorem drawBits_snd_one (byte x y_pos : Nat) :
    ∀ (js : List Nat) (pixels : Nat → Bool), (drawBits pixels byte x y_pos 1 js).2 = 1 := by
  intro js
  induction js with
  | nil =>
    intro pixels
    simp [drawBits]
  | cons j rest ih =>
    intro pixels
    by_cases h1 : (x + j) % 256 ≥ SCREEN_WIDTH
    · simp [drawBits, h1]
    · by_cases hb : bit_to_bool byte j
      · by_cases hpix : pixels (y_pos * SCREEN_WIDTH + (x + j) % 256) = true
        · simp [drawBits, h1, hpix, hb, ih]
        · have hpix' : pixels (y_pos * SCREEN_WIDTH + (x + j) % 256) = false := by
            simpa using hpix
          simp [drawBits, h1, hpix', hb, ih]
      · have hb' : bit_to_bool byte j = false := by simpa using hb
        simp [drawBits, h1, hb', ih]

/-- If some currently lit pixel is among the indices the inner loop will
toggle, the loop reports a collision. -/
theorem drawBits_collision (byte x y_pos : Nat) :
    ∀ (js : List Nat) (pixels : Nat → Bool) (c p : Nat),
      pixels p = true → bitsMask byte x y_pos js p = true →
      (drawBits pixels byte x y_pos c js).2 = 1 := by
  intro js
  induction js with
  | nil =>
    intro pixels c p _ hm
    simp [bitsMask] at hm
  | cons j rest ih =>
    intro pixels c p hp hm
    by_cases h1 : (x + j) % 256 ≥ SCREEN_WIDTH
    · simp [bitsMask, h1] at hm
    · have hmask : bitsMask byte x y_pos (j :: rest) p =
          xor (bit_to_bool byte j && decide (p = y_pos * SCREEN_WIDTH + (x + j) % 256))
            (bitsMask byte x y_pos rest p) := by
        simp [bitsMask, h1]
      rw [hmask] at hm
      by_cases hb : bit_to_bool byte j
      · by_cases hpix : pixels (y_pos * SCREEN_WIDTH + (x + j) % 256) = true
        · have hstep : drawBits pixels byte x y_pos c (j :: rest) =
              drawBits (setPix pixels (y_pos * SCREEN_WIDTH + (x + j) % 256) false)
                byte x y_pos 1 rest := by
            simp [drawBits, h1, hpix, hb]
          rw [hstep]
          exact drawBits_snd_one byte x y_pos rest _
        · have hpix' : pixels (y_pos * SCREEN_WIDTH + (x + j) % 256) = false := by
            simpa using hpix
          have hpne : p ≠ y_pos * SCREEN_WIDTH + (x + j) % 256 := by
            intro hpe
            rw [hpe, hpix'] at hp
            exact Bool.false_ne_true hp
          have hstep : drawBits pixels byte x y_pos c (j :: rest) =
              drawBits (setPix pixels (y_pos * SCREEN_WIDTH + (x + j) % 256) true)
                byte x y_pos c rest := by
            simp [drawBits, h1, hpix', hb]
          rw [hb] at hm
          simp [hpne] at hm
          rw [hstep]
          refine ih _ c p ?_ (by simpa using hm)
          simp [setPix, hpne, hp]
      · have hb' : bit_to_bool byte j = false := by simpa using hb
        rw [hb'] at hm
        simp only [Bool.false_and, Bool.false_xor] at hm
        have hstep : drawBits pixels byte x y_pos c (j :: rest) =
            drawBits pixels byte x y_pos c rest := by
          simp [drawBits, h1, hb']
        rw [hstep]
        exact ih _ _ _ hp hm

/-- The pixel buffer produced by a whole draw call: each index ends up
XORed with the sprite's toggle parity. -/
theorem drawRows_fst (x y : Nat) :
    ∀ (sprite : List Nat) (k : Nat) (pixels : Nat → Bool) (c p : Nat),
      (drawRows pixels x y c sprite k).1 p = xor (pixels p) (rowsMask x y sprite k p) := by
  intro sprite
  induction sprite with
  | nil =>
    intro k pixels c p
    simp [drawRows, rowsMask]
  | cons byte rest ih =>
    intro k pixels c p
    by_cases h1 : (y + k) % 256 ≥ SCREEN_HEIGHT
    · simp [drawRows, rowsMask, h1]
    · have hstep : drawRows pixels x y c (byte :: rest) k =
          drawRows (drawBits pixels byte x ((y + k) % 256) c (List.range 8)).1 x y
            (drawBits pixels byte x ((y + k) % 256) c (List.range 8)).2 rest (k + 1) := by
        simp [drawRows, h1]
      have hmask : rowsMask x y (byte :: rest) k p =
          xor (bitsMask byte x ((y + k) % 256) (List.range 8) p)
            (rowsMask x y rest (k + 1) p) := by
        simp [rowsMask, h1]
      rw [hstep, ih, drawBits_fst, hmask]
      cases pixels p <;> cases bitsMask byte x ((y + k) % 256) (List.range 8) p <;>
        cases rowsMask x y rest (k + 1) p <;> rfl

/-- Once the collision carry is 1, the rest of the draw call keeps it:
the flag is cumulative across the whole sprite. -/
theorem drawRows_snd_one (x y : Nat) :
    ∀ (sprite : List Nat) (k : Nat) (pixels : Nat → Bool),
      (drawRows pixels x y 1 sprite k).2 = 1 := by
  intro sprite
  induction sprite with
  | nil =>
    intro k pixels
    simp [drawRows]
  | cons byte rest ih =>
    intro k pixels
    by_cases h1 : (y + k) % 256 ≥ SCREEN_HEIGHT
    · simp [drawRows, h1]
    · have hstep : drawRows pixels x y 1 (byte :: rest) k =
          drawRows (drawBits pixels byte x ((y + k) % 256) 1 (List.range 8)).1 x y
            (drawBits pixels byte x ((y + k) % 256) 1 (List.range 8)).2 rest (k + 1) := by
        simp [drawRows, h1]
      rw [hstep, drawBits_snd_one]
      exact ih _ _

/-- If some currently lit pixel is among the indices the draw call will
toggle, the call reports a collision. -/
theorem drawRows_collision (x y : Nat) :
    ∀ (sprite : List Nat) (k : Nat) (pixels : Nat → Bool) (c p : Nat),
      pixels p = true → rowsMask x y sprite k p = true →
      (drawRows pixels x y c sprite k).2 = 1 := by
  intro sprite
  induction sprite with
  | nil =>
    intro k pixels c p _ hm
    simp [rowsMask] at hm
  | cons byte rest ih =>
    intro k pixels c p hp hm
    by_cases h1 : (y + k) % 256 ≥ SCREEN_HEIGHT
    · simp [rowsMask, h1] at hm
    · have hmask : rowsMask x y (byte :: rest) k p =
          xor (bitsMask byte x ((y + k) % 256) (List.range 8) p)
            (rowsMask x y rest (k + 1) p) := by
        simp [rowsMask, h1]
      rw [hmask] at hm
      have hstep : drawRows pixels x y c (byte :: rest) k =
          drawRows (drawBits pixels byte x ((y + k) % 256) c (List.range 8)).1 x y
            (drawBits pixels byte x ((y + k) % 256) c (List.range 8)).2 rest (k + 1) := by
        simp [drawRows, h1]
      rw [hstep]
      by_cases hbm : bitsMask byte x ((y + k) % 256) (List.range 8) p = true
      · have h2 : (drawBits pixels byte x ((y + k) % 256) c (List.range 8)).2 = 1 :=
          drawBits_collision byte x ((y + k) % 256) (List.range 8) pixels c p hp hbm
        rw [h2]
        exact drawRows_snd_one x y rest (k + 1) _
      · have hbm' : bitsMask byte x ((y + k) % 256) (List.range 8) p = false := by
          simpa using hbm
        rw [hbm'] at hm
        simp only [Bool.false_xor] at hm
        refine ih _ _ _ _ ?_ hm
        rw [drawBits_fst, hbm', hp]
        rfl

/-- The inner loop's `break` semantics: the bits after the first one
whose x position reaches the right edge are never processed. -/
theorem drawBits_break (byte x y_pos : Nat) :
    ∀ (js : List Nat) (pixels : Nat → Bool) (c : Nat),
      drawBits pixels byte x y_pos c js =
        drawBits pixels byte x y_pos c
          (js.takeWhile (fun j => decide ((x + j) % 256 < SCREEN_WIDTH))) := by
  intro js
  induction js with
  | nil =>
    intro pixels c
    rfl
  | cons j rest ih =>
    intro pixels c
    by_cases h1 : (x + j) % 256 ≥ SCREEN_WIDTH
    · have hpred : (fun j => decide ((x + j) % 256 < SCREEN_WIDTH)) j = false := by
        simpa using h1
      simp [drawBits, h1, List.takeWhile_cons, hpred]
    · have hpred : (fun j => decide ((x + j) % 256 < SCREEN_WIDTH)) j = true := by
        simpa using Nat.lt_of_not_le h1
      by_cases hb : bit_to_bool byte j
      · by_cases hpix : pixels (y_pos * SCREEN_WIDTH + (x + j) % 256) = true
        · simp [drawBits, h1, hpix, hb, List.takeWhile_cons, hpred, ih]
        · have hpix' : pixels (y_pos * SCREEN_WIDTH + (x + j) % 256) = false := by
            simpa using hpix
          simp [drawBits, h1, hpix', hb, List.takeWhile_cons, hpred, ih]
      · have hb' : bit_to_bool byte j = false := by simpa using hb
        simp [drawBits, h1, hb', List.takeWhile_cons, hpred, ih]

/-- The outer loop's `break` semantics: with the anchor row in range,
only the rows that fit above the bottom edge are processed. -/
theorem drawRows_clip (x y : Nat) :
    ∀ (sprite : List Nat) (k : Nat) (pixels : Nat → Bool) (c : Nat),
      y + k ≤ SCREEN_HEIGHT →
      drawRows pixels x y c sprite k =
        drawRows pixels x y c (sprite.take (SCREEN_HEIGHT - (y + k))) k := by
  intro sprite
  induction sprite with
  | nil =>
    intro k pixels c _
    simp [List.take_nil]
  | cons byte rest ih =>
    intro k pixels c hyk
    have hmod : (y + k) % 256 = y + k := by
      apply Nat.mod_eq_of_lt
      have hs : SCREEN_HEIGHT = 32 := rfl
      omega
    by_cases h1 : (y + k) % 256 ≥ SCREEN_HEIGHT
    · have hz : SCREEN_HEIGHT - (y + k) = 0 := by omega
      rw [hz, List.take_zero]
      simp [drawRows, h1]
    · have hlt : y + k < SCREEN_HEIGHT := by omega
      have hpos : SCREEN_HEIGHT - (y + k) = (SCREEN_HEIGHT - (y + k + 1)) + 1 := by omega
      rw [hpos, List.take_succ_cons]
      have hstepL : drawRows pixels x y c (byte :: rest) k =
          drawRows (drawBits pixels byte x ((y + k) % 256) c (List.range 8)).1 x y
            (drawBits pixels byte x ((y + k) % 256) c (List.range 8)).2 rest (k + 1) := by
        simp [drawRows, h1]
      have hstepR : drawRows pixels x y c (byte :: List.take (SCREEN_HEIGHT - (y + k + 1)) rest) k =
          drawRows (drawBits pixels byte x ((y + k) % 256) c (List.range 8)).1 x y
            (drawBits pixels byte x ((y + k) % 256) c (List.range 8)).2
            (List.take (SCREEN_HEIGHT - (y + k + 1)) rest) (k + 1) := by
        simp [drawRows, h1]
      rw [hstepL, hstepR]
      have hyk' : y + (k + 1) ≤ SCREEN_HEIGHT := by omega
      have := ih (k + 1) (drawBits pixels byte x ((y + k) % 256) c (List.range 8)).1
        (drawBits pixels byte x ((y + k) % 256) c (List.range 8)).2 hyk'
      rw [this]
      have harith : SCREEN_HEIGHT - (y + (k + 1)) = SCREEN_HEIGHT - (y + k + 1) := by omega
      rw [harith]

/-- For an in-range x anchor, the right-edge `break` cuts the 8 bit
indices of a row down to the first `min 8 (SCREEN_WIDTH - x)` of them. -/
theorem range_takeWhile_eval :
    ∀ x, x < SCREEN_WIDTH →
      (List.range 8).takeWhile (fun j => decide ((x + j) % 256 < SCREEN_WIDTH)) =
        List.range (min 8 (SCREEN_WIDTH - x)) := by
  decide

/-! ## Claim theorems -/

/-- C5: for an in-range anchor, `draw` processes sprite rows top-down and
drops everything from the first row that reaches the bottom edge (no
vertical wrap); within a row it processes the 8 bits most-significant
first and stops at the first bit whose x position reaches the right edge
(per-row clip, no horizontal wrap); drawing an all-set 8×1 sprite at
anchor (60, 0) on the blank screen sets exactly the pixels of columns
60–63 of row 0 (buffer indices 60–63) and nothing else — in particular
nothing in column 0. -/
theorem draw_edge_clipping (d : Display) (sprite : List Nat) (x y : Nat)
    (hx : x < SCREEN_WIDTH) (hy : y < SCREEN_HEIGHT) :
    (d.draw sprite x y = d.draw (sprite.take (SCREEN_HEIGHT - y)) x y)
    ∧ (∀ (byte y_pos c : Nat) (pix : Nat → Bool),
        drawBits pix byte x y_pos c (List.range 8) =
          drawBits pix byte x y_pos c (List.range (min 8 (SCREEN_WIDTH - x))))
    ∧ (∀ p, (Display.new.draw [0xFF] 60 0).1.pixels p = decide (60 ≤ p ∧ p < 64)) := by
  refine ⟨?_, ?_, ?_⟩
  · have h := drawRows_clip x y sprite 0 d.pixels 0 (by omega)
    rw [Nat.add_zero] at h
    simp only [Display.draw]
    rw [h]
  · intro byte y_pos c pix
    rw [drawBits_break byte x y_pos (List.range 8) pix c, range_takeWhile_eval x hx]
  · intro p
    have h := drawRows_fst 60 0 [0xFF] 0 Display.new.pixels 0 p
    simp only [Display.draw]
    rw [h]
    have hfalse : Display.new.pixels p = false := rfl
    rw [hfalse, Bool.false_xor]
    have hr : List.range 8 = [0, 1, 2, 3, 4, 5, 6, 7] := rfl
    rw [show rowsMask 60 0 [0xFF] 0 p =
          bitsMask 0xFF 60 0 (List.range 8) p by simp [rowsMask, SCREEN_HEIGHT]]
    rw [hr]
    simp only [bitsMask, bit_to_bool]
    norm_num [SCREEN_WIDTH]
    by_cases h60 : p = 60
    · simp [h60]
    · by_cases h61 : p = 61
      · simp [h60, h61]
      · by_cases h62 : p = 62
        · simp [h60, h61, h62]
        · by_cases h63 : p = 63
          · simp [h60, h61, h62, h63]
          · have hno : ¬(60 ≤ p ∧ p < 64) := by omega
            simp [h60, h61, h62, h63, hno]
            omega

/-- C6: for every pixel buffer, sprite and anchor, drawing the same
sprite twice at the same anchor restores every pixel (XOR is an
involution); if the first draw turned on at least one pixel, the second
draw reports collision 1; and within one call the collision carry is
cumulative — once 1, it stays 1 for all remaining rows. -/
theorem draw_involution_collision (d : Display) (sprite : List Nat) (x y : Nat) :
    (∀ p, ((d.draw sprite x y).1.draw sprite x y).1.pixels p = d.pixels p)
    ∧ ((∃ p, d.pixels p = false ∧ (d.draw sprite x y).1.pixels p = true) →
        ((d.draw sprite x y).1.draw sprite x y).2 = 1)
    ∧ (∀ (pixels : Nat → Bool) (k : Nat) (rest : List Nat),
        (drawRows pixels x y 1 rest k).2 = 1) := by
  refine ⟨?_, ?_, ?_⟩
  · intro p
    simp only [Display.draw]
    rw [drawRows_fst, drawRows_fst]
    cases d.pixels p <;> cases rowsMask x y sprite 0 p <;> rfl
  · rintro ⟨p, hold, hnew⟩
    simp only [Display.draw] at hnew ⊢
    have hmask : rowsMask x y sprite 0 p = true := by
      rw [drawRows_fst, hold, Bool.false_xor] at hnew
      exact hnew
    exact drawRows_collision x y sprite 0 _ 0 p hnew hmask
  · intro pixels k rest
    exact drawRows_snd_one x y rest k pixels

/-- C9 counterexample: on a display with a lit pixel and a clear redraw
flag, `clear()` blanks the pixel but leaves `redraw_needed()` false,
contradicting the claim that a clear of a non-blank screen sets it. -/
theorem clear_preserves_flag_cex :
    dispLit.pixels 0 = true ∧ (dispLit.clear).pixels 0 = false ∧
      (dispLit.clear).redraw_needed = false :=
  ⟨rfl, rfl, rfl⟩

/-- C9 (amended): every sprite draw sets the redraw flag (whether or not
any pixel changed), `clear()` leaves the flag untouched, and `render()`
is the only operation that resets it. -/
theorem redraw_flag_behaviour (d : Display) (sprite : List Nat) (x y : Nat) :
    ((d.draw sprite x y).1.redraw_needed = true)
    ∧ ((d.clear).redraw_flag = d.redraw_flag)
    ∧ ((d.render).redraw_flag = false) :=
  ⟨rfl, rfl, rfl⟩

/-- C5 witness: the clipping theorem applied at concrete anchors — a
two-row sprite at y = 31 keeps only its first row, an x = 60 row keeps
only its first 4 bits, and the (60, 0) all-set draw lights exactly
columns 60 and 63 and not column 0. -/
theorem draw_edge_clipping_witness :
    (Display.new.draw [0x80, 0x80] 0 31 =
      Display.new.draw ([0x80, 0x80].take (SCREEN_HEIGHT - 31)) 0 31)
    ∧ (drawBits Display.new.pixels 0xFF 60 0 0 (List.range 8) =
        drawBits Display.new.pixels 0xFF 60 0 0 (List.range (min 8 (SCREEN_WIDTH - 60))))
    ∧ ((Display.new.draw [0xFF] 60 0).1.pixels 60 = decide (60 ≤ 60 ∧ 60 < 64))
    ∧ ((Display.new.draw [0xFF] 60 0).1.pixels 63 = decide (60 ≤ 63 ∧ 63 < 64))
    ∧ ((Display.new.draw [0xFF] 60 0).1.pixels 0 = decide (60 ≤ 0 ∧ 0 < 64)) :=
  ⟨(draw_edge_clipping Display.new [0x80, 0x80] 0 31 (by decide) (by decide)).1,
   (draw_edge_clipping Display.new [0xFF] 60 0 (by decide) (by decide)).2.1 0xFF 0 0
     Display.new.pixels,
   (draw_edge_clipping Display.new [0xFF] 60 0 (by decide) (by decide)).2.2 60,
   (draw_edge_clipping Display.new [0xFF] 60 0 (by decide) (by decide)).2.2 63,
   (draw_edge_clipping Display.new [0xFF] 60 0 (by decide) (by decide)).2.2 0⟩

/-- C6 witness: the involution and collision theorem applied to a
one-pixel sprite at the origin of a blank screen — drawing twice
restores pixel 0, the second draw reports collision 1, and a call that
starts with carry 1 ends with carry 1. -/
theorem draw_involution_collision_witness :
    (((Display.new.draw [0x80] 0 0).1.draw [0x80] 0 0).1.pixels 0 = Display.new.pixels 0)
    ∧ (((Display.new.draw [0x80] 0 0).1.draw [0x80] 0 0).2 = 1)
    ∧ ((drawRows Display.new.pixels 0 0 1 [0x00] 5).2 = 1) :=
  ⟨(draw_involution_collision Display.new [0x80] 0 0).1 0,
   (draw_involution_collision Display.new [0x80] 0 0).2.1 ⟨0, rfl, rfl⟩,
   (draw_involution_collision Display.new [0x80] 0 0).2.2 Display.new.pixels 5 [0x00]⟩

/-- C7: the stack pointer never leaves [0, 16]: `push` succeeds and
increments exactly below 16 and fails with `StackOverflowError` at 16;
`pop` fails with `StackUnderflowError` at 0 and otherwise decrements and
returns the most recently pushed not-yet-popped address; sixteen pushes
from empty succeed and a seventeenth overflows. -/
theorem stack_contract :
    (∀ (s : Stack) (v : Nat) (s' : Stack),
        s.sp ≤ STACK_SIZE → s.push v = .ok s' → s'.sp ≤ STACK_SIZE)
    ∧ (∀ (s : Stack) (w : Nat) (s' : Stack),
        s.sp ≤ STACK_SIZE → s.pop = .ok (w, s') → s'.sp ≤ STACK_SIZE)
    ∧ (∀ (s : Stack) (v : Nat), s.sp < STACK_SIZE →
        s.push v = .ok { stack := setAt s.stack s.sp v, sp := s.sp + 1 })
    ∧ (∀ (s : Stack) (v : Nat), s.sp = STACK_SIZE → s.push v = .err .stackOverflowError)
    ∧ (∀ s : Stack, s.sp = 0 → s.pop = .err .stackUnderflowError)
    ∧ (∀ s : Stack, 0 < s.sp → s.sp ≤ STACK_SIZE →
        s.pop = .ok (s.stack (s.sp - 1), { s with sp := s.sp - 1 }))
    ∧ (∀ (s : Stack) (v : Nat), s.sp < STACK_SIZE →
        ({ stack := setAt s.stack s.sp v, sp := s.sp + 1 } : Stack).pop =
          .ok (v, { stack := setAt s.stack s.sp v, sp := s.sp }))
    ∧ (∃ s16 : Stack, pushMany Stack.new (List.range 16) = .ok s16 ∧ s16.sp = 16
        ∧ s16.push 0x206 = .err .stackOverflowError) := by
  have hsz : STACK_SIZE = 16 := rfl
  refine ⟨?_, ?_, ?_, ?_, ?_, ?_, ?_, ?_⟩
  · intro s v s' hle hok
    by_cases h : s.sp ≥ STACK_SIZE
    · simp [Stack.push, h] at hok
    · simp [Stack.push, h] at hok
      rw [← hok]
      dsimp only
      omega
  · intro s w s' hle hok
    by_cases h0 : s.sp = 0
    · simp [Stack.pop, h0] at hok
    · have hlt : s.sp - 1 < STACK_SIZE := by omega
      simp [Stack.pop, h0, hlt] at hok
      rw [← hok.2]
      dsimp only
      omega
  · intro s v h
    simp [Stack.push, Nat.not_le.mpr h]
  · intro s v h
    simp [Stack.push, h]
  · intro s h
    simp [Stack.pop, h]
  · intro s h0 hle
    have hlt : s.sp - 1 < STACK_SIZE := by omega
    simp [Stack.pop, Nat.pos_iff_ne_zero.mp h0, hlt]
  · intro s v h
    have h1 : s.sp + 1 ≠ 0 := by omega
    have h2 : s.sp + 1 - 1 < STACK_SIZE := by omega
    simp [Stack.pop, h1, h2, setAt]
    omega
  · exact ⟨_, rfl, rfl, rfl⟩

/-- C7 witness: the stack contract applied to concrete stacks — a push
on the empty stack succeeds and pops back the pushed address, a pop on
the empty stack underflows, and a full stack overflows. -/
theorem stack_contract_witness :
    (Stack.new.push 0x234 = .ok { stack := setAt Stack.new.stack 0 0x234, sp := 1 })
    ∧ (({ stack := setAt Stack.new.stack 0 0x234, sp := 1 } : Stack).pop =
        .ok (0x234, { stack := setAt Stack.new.stack 0 0x234, sp := 0 }))
    ∧ (Stack.new.pop = .err .stackUnderflowError)
    ∧ (({ stack := Stack.new.stack, sp := 16 } : Stack).push 0x206 =
        .err .stackOverflowError) :=
  ⟨stack_contract.2.2.1 Stack.new 0x234 (by decide),
   stack_contract.2.2.2.2.2.2.1 Stack.new 0x234 (by decide),
   stack_contract.2.2.2.2.1 Stack.new rfl,
   stack_contract.2.2.2.1 { stack := Stack.new.stack, sp := 16 } 0x206 rfl⟩

/-- C1: `load_rom` rejects an oversized ROM with `InvalidRomSizeError`
without copying, and accepts a ROM of exactly `MAX_ROM_SIZE` bytes
marking it loaded — but for any strictly shorter ROM (every real ROM)
the `copy_from_slice` into the fixed-length region panics, so the
claimed "every length ≤ MAX_ROM_SIZE succeeds" fails. -/
theorem load_rom_outcomes :
    (Memory.new.load_rom (List.replicate 3585 0) = .err .invalidRomSizeError)
    ∧ (Memory.new.load_rom [0x12] = .crash)
    ∧ (∃ m' : Memory, Memory.new.load_rom (List.replicate 3584 0xAB) = .ok m'
        ∧ m'.rom_loaded = true)
    ∧ (Memory.new.rom_loaded = false) := by
  refine ⟨?_, rfl, ?_, rfl⟩
  · simp only [Memory.load_rom, List.length_replicate]
    norm_num [MAX_ROM_SIZE, RAM_SIZE, START_ADDR]
  · have h : Memory.new.load_rom (List.replicate 3584 0xAB) =
        .ok { ram := writeList Memory.new.ram START_ADDR (List.replicate 3584 0xAB),
              rom_loaded := true } := by
      simp only [Memory.load_rom, List.length_replicate]
      norm_num [MAX_ROM_SIZE, RAM_SIZE, START_ADDR]
    exact ⟨_, h, rfl⟩

/-- C3 (amended): opcode 8XY4 computes the wrapped sum and the carry
from the pre-update registers and never panics (the handler is a total
function); VF always ends up holding 1 exactly when the wrapped result
is below the pre-update VX; the wrapped sum is stored in VX whenever
X ≠ 0xF (for X = 0xF the subsequent flag write overwrites it); all other
registers are untouched. -/
theorem add_register_carry_correct (p : Processor) (opcode : Nat) :
    ((p.add_register_carry opcode).v_reg CARRY_REGISTER =
      if (p.v_reg ((opcode &&& 0x0F00) >>> 8) + p.v_reg ((opcode &&& 0x00F0) >>> 4)) % 256
          < p.v_reg ((opcode &&& 0x0F00) >>> 8) then 1 else 0)
    ∧ ((opcode &&& 0x0F00) >>> 8 ≠ CARRY_REGISTER →
        (p.add_register_carry opcode).v_reg ((opcode &&& 0x0F00) >>> 8) =
          (p.v_reg ((opcode &&& 0x0F00) >>> 8) + p.v_reg ((opcode &&& 0x00F0) >>> 4)) % 256)
    ∧ (∀ r, r ≠ (opcode &&& 0x0F00) >>> 8 → r ≠ CARRY_REGISTER →
        (p.add_register_carry opcode).v_reg r = p.v_reg r) := by
  refine ⟨?_, ?_, ?_⟩
  · simp [Processor.add_register_carry, Processor.set_reg, Processor.set_carry,
      Processor.get_reg, decode_middle_registers, setAt, CARRY_REGISTER, NUM_REGS]
  · intro h
    simp only [CARRY_REGISTER, NUM_REGS] at h
    simp [Processor.add_register_carry, Processor.set_reg, Processor.set_carry,
      Processor.get_reg, decode_middle_registers, setAt, CARRY_REGISTER, NUM_REGS, h]
  · intro r hr hc
    simp only [CARRY_REGISTER, NUM_REGS] at hc
    simp [Processor.add_register_carry, Processor.set_reg, Processor.set_carry,
      Processor.get_reg, decode_middle_registers, setAt, CARRY_REGISTER, NUM_REGS, hr, hc]

/-- C3 counterexample: for X = Y = 0xF with V15 = 1 the claim predicts
that opcode 8FF4 stores the wrapped sum 2 in VX = V15, but the code's
flag write overwrites it with the carry 0. -/
theorem add_register_carry_cex :
    (procVF1.add_register_carry 0x8FF4).v_reg 15 ≠
      (procVF1.v_reg 15 + procVF1.v_reg 15) % 256 := by
  decide

/-- C3 witness: the amended theorem applied to opcode 8014 (X = 0,
Y = 1) on a zero-register processor. -/
theorem add_register_carry_witness :
    ((procBase.add_register_carry 0x8014).v_reg ((0x8014 &&& 0x0F00) >>> 8) =
      (procBase.v_reg ((0x8014 &&& 0x0F00) >>> 8) +
        procBase.v_reg ((0x8014 &&& 0x00F0) >>> 4)) % 256)
    ∧ ((procBase.add_register_carry 0x8014).v_reg 3 = procBase.v_reg 3) :=
  ⟨(add_register_carry_correct procBase 0x8014).2.1 (by decide),
   (add_register_carry_correct procBase 0x8014).2.2 3 (by decide) (by decide)⟩

/-- C4 (amended): opcodes 8XY5 and 8XY7 are distinct: 8XY5 computes
VX − VY wrapped and sets VF to 1 iff VX ≥ VY before the subtraction
while 8XY7 computes VY − VX wrapped and sets VF to 1 iff VY ≥ VX; the
flag conventions hold for every X and Y, and the wrapped difference is
stored in VX whenever X ≠ 0xF (for X = 0xF the flag write overwrites
it). -/
theorem sub_registers_correct (p : Processor) (opcode : Nat) :
    ((p.sub_register opcode).v_reg CARRY_REGISTER =
      if p.v_reg ((opcode &&& 0x00F0) >>> 4) ≤ p.v_reg ((opcode &&& 0x0F00) >>> 8)
        then 1 else 0)
    ∧ ((opcode &&& 0x0F00) >>> 8 ≠ CARRY_REGISTER →
        (p.sub_register opcode).v_reg ((opcode &&& 0x0F00) >>> 8) =
          wrapping_sub8 (p.v_reg ((opcode &&& 0x0F00) >>> 8))
            (p.v_reg ((opcode &&& 0x00F0) >>> 4)))
    ∧ ((p.sub_register_reversed opcode).v_reg CARRY_REGISTER =
      if p.v_reg ((opcode &&& 0x0F00) >>> 8) ≤ p.v_reg ((opcode &&& 0x00F0) >>> 4)
        then 1 else 0)
    ∧ ((opcode &&& 0x0F00) >>> 8 ≠ CARRY_REGISTER →
        (p.sub_register_reversed opcode).v_reg ((opcode &&& 0x0F00) >>> 8) =
          wrapping_sub8 (p.v_reg ((opcode &&& 0x00F0) >>> 4))
            (p.v_reg ((opcode &&& 0x0F00) >>> 8))) := by
  refine ⟨?_, ?_, ?_, ?_⟩
  · simp [Processor.sub_register, Processor.set_reg, Processor.set_carry,
      Processor.get_reg, decode_middle_registers, setAt, CARRY_REGISTER, NUM_REGS]
  · intro h
    simp only [CARRY_REGISTER, NUM_REGS] at h
    simp [Processor.sub_register, Processor.set_reg, Processor.set_carry,
      Processor.get_reg, decode_middle_registers, setAt, CARRY_REGISTER, NUM_REGS, h]
  · simp [Processor.sub_register_reversed, Processor.set_reg, Processor.set_carry,
      Processor.get_reg, decode_middle_registers, setAt, CARRY_REGISTER, NUM_REGS]
  · intro h
    simp only [CARRY_REGISTER, NUM_REGS] at h
    simp [Processor.sub_register_reversed, Processor.set_reg, Processor.set_carry,
      Processor.get_reg, decode_middle_registers, setAt, CARRY_REGISTER, NUM_REGS, h]

/-- C4 counterexample: for X = Y = 0xF with V15 = 5 the claim predicts
that opcode 8FF5 stores the wrapped difference 0 in VX = V15, but the
code's no-borrow flag write overwrites it with 1. -/
theorem sub_register_cex :
    (procVF5.sub_register 0x8FF5).v_reg 15 ≠
      wrapping_sub8 (procVF5.v_reg 15) (procVF5.v_reg 15) := by
  decide

/-- C4 witness: the amended theorem applied to opcodes 8015 and 8017
(X = 0, Y = 1) on a zero-register processor. -/
theorem sub_registers_witness :
    ((procBase.sub_register 0x8015).v_reg ((0x8015 &&& 0x0F00) >>> 8) =
      wrapping_sub8 (procBase.v_reg ((0x8015 &&& 0x0F00) >>> 8))
        (procBase.v_reg ((0x8015 &&& 0x00F0) >>> 4)))
    ∧ ((procBase.sub_register_reversed 0x8017).v_reg ((0x8017 &&& 0x0F00) >>> 8) =
      wrapping_sub8 (procBase.v_reg ((0x8017 &&& 0x00F0) >>> 4))
        (procBase.v_reg ((0x8017 &&& 0x0F00) >>> 8))) :=
  ⟨(sub_registers_correct procBase 0x8015).2.1 (by decide),
   (sub_registers_correct procBase 0x8017).2.2.2 (by decide)⟩

/-- C2 (amended): `cycle` fails with `MissingRomError` when no ROM is
loaded; otherwise it fails with `InvalidRamAddressError` exactly when the
program counter is at or beyond the end of the 4096-byte RAM; when both
opcode bytes lie inside RAM (pc + 1 < 4096) it fetches the bytes at pc
and pc + 1, composes the opcode with the byte at pc as the high byte
(positional composition whenever the low byte is a byte value), and runs
the decode-execute dispatch on the state whose pc is already pc + 2, so
a jump opcode overwrites that default advance. (At pc = 4095 the guard
passes but the low-byte fetch panics — see the counterexample.) -/
theorem cycle_contract (p : Processor) (d : Display) (inp : Input) :
    (p.memory.rom_loaded = false → p.cycle d inp = .err .missingRomError)
    ∧ (p.memory.rom_loaded = true → RAM_SIZE ≤ p.pc →
        p.cycle d inp = .err .invalidRamAddressError)
    ∧ (p.memory.rom_loaded = true → p.pc + 1 < RAM_SIZE →
        p.cycle d inp =
          Processor.execOpcode { p with pc := p.pc + 2 }
            ((p.memory.ram p.pc <<< 8) ||| p.memory.ram (p.pc + 1)) d inp)
    ∧ (p.memory.ram (p.pc + 1) < 256 →
        (p.memory.ram p.pc <<< 8) ||| p.memory.ram (p.pc + 1) =
          256 * p.memory.ram p.pc + p.memory.ram (p.pc + 1))
    ∧ (p.memory.rom_loaded = true → p.pc + 1 < RAM_SIZE →
        ((p.memory.ram p.pc <<< 8) ||| p.memory.ram (p.pc + 1)) &&& 0xF000 = 0x1000 →
        p.cycle d inp =
          .ok ({ p with pc := ((p.memory.ram p.pc <<< 8) ||| p.memory.ram (p.pc + 1)) &&& 0x0FFF },
            d)) := by
  have hram : RAM_SIZE = 4096 := rfl
  have hfetch : p.memory.rom_loaded = true → p.pc + 1 < RAM_SIZE →
      p.cycle d inp =
        Processor.execOpcode { p with pc := p.pc + 2 }
          ((p.memory.ram p.pc <<< 8) ||| p.memory.ram (p.pc + 1)) d inp := by
    intro h hlt
    have hpclt : p.pc < RAM_SIZE := by omega
    have h1 : p.memory.read p.pc = some (p.memory.ram p.pc) := by
      simp [Memory.read, hpclt]
    have hmod : (p.pc + 1) % 65536 = p.pc + 1 := Nat.mod_eq_of_lt (by omega)
    have h2 : p.memory.read ((p.pc + 1) % 65536) = some (p.memory.ram (p.pc + 1)) := by
      rw [hmod]
      simp [Memory.read, hlt]
    have hmod2 : (p.pc + 2) % 65536 = p.pc + 2 := Nat.mod_eq_of_lt (by omega)
    have hguard : ¬ p.pc ≥ RAM_SIZE := by omega
    simp only [Processor.cycle, h, Bool.not_true, Bool.false_eq_true, if_false, hguard,
      h1, h2, hmod2]
  refine ⟨?_, ?_, hfetch, ?_, ?_⟩
  · intro h
    simp [Processor.cycle, h]
  · intro h hge
    have hguard : p.pc ≥ RAM_SIZE := hge
    simp [Processor.cycle, h, hguard]
  · intro hlow
    rw [shiftLeft_lor_eq 8 (p.memory.ram p.pc) (p.memory.ram (p.pc + 1)) (by simpa using hlow)]
    norm_num [Nat.mul_comm]
  · intro h hlt hfam
    rw [hfetch h hlt]
    simp only [Processor.execOpcode, hfam]
    norm_num
    rfl

/-- C2 counterexample: with a ROM loaded and pc = 4095 the claim's
"otherwise fetch, compose, advance and execute" clause fails: the guard
passes (pc is below 4096) but the cycle panics on the out-of-bounds
low-byte fetch instead of executing or reporting an error. -/
theorem cycle_contract_cex :
    procPcEnd.memory.rom_loaded = true ∧ procPcEnd.pc = 4095
    ∧ procPcEnd.cycle Display.new noKeys = .crash
    ∧ procPcEnd.cycle Display.new noKeys ≠ .err .invalidRamAddressError
    ∧ procPcEnd.cycle Display.new noKeys ≠ .err .missingRomError := by
  have hc : procPcEnd.cycle Display.new noKeys = .crash := rfl
  exact ⟨rfl, rfl, hc, by rw [hc]; intro h; exact Outcome.noConfusion h,
    by rw [hc]; intro h; exact Outcome.noConfusion h⟩

/-- C2 witness: the contract applied to concrete states — a missing ROM
reports `MissingRomError`, pc = 4096 reports `InvalidRamAddressError`,
and a freshly loaded ROM whose first opcode is `0x12 0x34` jumps to
0x234, overwriting the default advance to 0x202. -/
theorem cycle_contract_witness :
    (procNoRom.cycle Display.new noKeys = .err .missingRomError)
    ∧ (({ procBase with pc := 4096 } : Processor).cycle Display.new noKeys =
        .err .invalidRamAddressError)
    ∧ ((procBase.memory.ram procBase.pc <<< 8) ||| procBase.memory.ram (procBase.pc + 1) =
        256 * procBase.memory.ram procBase.pc + procBase.memory.ram (procBase.pc + 1))
    ∧ (procBase.cycle Display.new noKeys =
        .ok ({ procBase with
          pc := ((procBase.memory.ram procBase.pc <<< 8) |||
            procBase.memory.ram (procBase.pc + 1)) &&& 0x0FFF }, Display.new)) :=
  ⟨(cycle_contract procNoRom Display.new noKeys).1 rfl,
   (cycle_contract { procBase with pc := 4096 } Display.new noKeys).2.1 rfl (by decide),
   (cycle_contract procBase Display.new noKeys).2.2.2.1 (by decide),
   (cycle_contract procBase Display.new noKeys).2.2.2.2 rfl (by decide) (by decide)⟩

/-- C8: the opcodes whose data-address ranges run past the end of RAM do
not all report `InvalidRamAddressError`: with the index register at the
last RAM byte, FX33 (`store_bcd`) and FX65 (`load_registers_from_ram`)
panic on unchecked RAM accesses, while FX55 (`dump_registers_to_ram`)
and DXYN (`draw_sprite`) return the explicit error on the analogous
out-of-range inputs. -/
theorem ram_range_error_reporting :
    procIEnd.store_bcd 0xF033 = .crash
    ∧ procIEnd.load_registers_from_ram 0xF265 = .crash
    ∧ procIEnd.dump_registers_to_ram 0xF255 = .err .invalidRamAddressError
    ∧ procIEnd.draw_sprite 0xD012 Display.new = .err .invalidRamAddressError :=
  ⟨rfl, rfl, rfl, rfl⟩

/-- C10: `cycle`'s end-of-memory guard rejects exactly pc ≥ 4096, so for
a loaded ROM and pc = 4095 the guard passes, the low opcode byte is
fetched at address 4096 — past the end of RAM, a panicking read rather
than an `InvalidRamAddressError`. -/
theorem cycle_guard_gap (p : Processor) (d : Display) (inp : Input)
    (hrom : p.memory.rom_loaded = true) (hpc : p.pc = 4095) :
    p.pc < RAM_SIZE
    ∧ p.memory.read (p.pc + 1) = none
    ∧ p.cycle d inp = .crash
    ∧ (∀ q : Processor, q.memory.rom_loaded = true → RAM_SIZE ≤ q.pc →
        q.cycle d inp = .err .invalidRamAddressError) := by
  refine ⟨by rw [hpc]; decide, ?_, ?_, ?_⟩
  · rw [hpc]
    simp [Memory.read, RAM_SIZE]
  · have hguard : ¬ p.pc ≥ RAM_SIZE := by rw [hpc]; decide
    have h1 : p.memory.read p.pc = some (p.memory.ram p.pc) := by
      rw [hpc]
      simp [Memory.read, RAM_SIZE]
    have h2 : p.memory.read ((p.pc + 1) % 65536) = none := by
      rw [hpc]
      simp [Memory.read, RAM_SIZE]
    simp only [Processor.cycle, hrom, Bool.not_true, Bool.false_eq_true, if_false,
      hguard, h1, h2]
  · intro q hq hge
    have hguard : q.pc ≥ RAM_SIZE := hge
    simp [Processor.cycle, hq, hguard]

/-- C10 witness: the guard-gap theorem applied to a concrete loaded
processor whose program counter is 4095. -/
theorem cycle_guard_gap_witness :
    procPcEnd7.pc < RAM_SIZE
    ∧ procPcEnd7.memory.read (procPcEnd7.pc + 1) = none
    ∧ procPcEnd7.cycle Display.new noKeys = .crash :=
  ⟨(cycle_guard_gap procPcEnd7 Display.new noKeys rfl rfl).1,
   (cycle_guard_gap procPcEnd7 Display.new noKeys rfl rfl).2.1,
   (cycle_guard_gap procPcEnd7 Display.new noKeys rfl rfl).2.2.1⟩

end Chip8
